import Mathlib

/-!
# Verification of the csv_to_sqlite ingestion core

This file gives a shallow embedding of the schema-flexible CSV-to-SQLite
ingestion pipeline (`src/csvcache.rs`, `src/sql.rs`, `src/main.rs`) and proves
the specified properties about it.

The CSV tokenizer and the SQLite engine are external collaborators.  They are
represented by their observable behaviour: the parser's output is a header
read result plus a list of per-record read results, and the SQLite connection
is an oracle assigning a result to each statement the code issues.
-/

/-- The command-line argument bundle (`Arguments` in `main.rs`), restricted to
the fields the ingestion core reads. -/
structure Arguments where
  use_header : Bool
  delimiter : Char
  default_column_name : String
deriving Repr, DecidableEq

/-- The in-memory representation of a parsed delimited file
(`CSVCache` in `csvcache.rs`). -/
structure CSVCache where
  /-- The header row, if it exists. -/
  header : Option (List String)
  /-- The contents of the file. -/
  rows : List (List String)
  /-- The number of columns in the row that has the most columns. -/
  max_column_count : Nat
  /-- Column name used for otherwise unnamed columns. -/
  default_column_name : String
deriving Repr, DecidableEq

/-- The header-reading step of `CSVCache::load` (`csvcache.rs` lines 48–71):
if `use_header` is set the header record is consumed; a failed header read is
logged and treated as "no header". -/
def headerRead (args : Arguments) (headersResult : Except String (List String)) :
    Option (List String) :=
  if args.use_header then
    match headersResult with
    | .ok headers => some headers
    | .error _ => none
  else none

/-- The initial `max_column_count` of `CSVCache::load` (`csvcache.rs` line 65):
the header's length, or 0 when there is no header. -/
def initialMax : Option (List String) → Nat
  | some x => x.length
  | none => 0

/-- The record-collection loop of `CSVCache::load` (`csvcache.rs` lines 74–94):
records that parsed successfully and are non-empty are appended to `rows`,
raising `max_column_count` to the record's width when it is longer; a record
that failed to parse is logged and skipped. -/
def collectRows :
    List (Except String (List String)) → List (List String) × Nat →
    List (List String) × Nat
  | [], acc => acc
  | r :: rest, (rows, mcc) =>
    match r with
    | .ok record =>
      if record.isEmpty then collectRows rest (rows, mcc)
      else collectRows rest (rows ++ [record], max mcc record.length)
    | .error _ => collectRows rest (rows, mcc)

/-- The header-padding step of `CSVCache::load` (`csvcache.rs` lines 96–103):
when `max_column_count` exceeds the header's length, the header is extended
with generated names `default_column_name ++ toString (ii + 1)` for each
missing index `ii`. -/
def padHeader (default_column_name : String) (mcc : Nat) :
    Option (List String) → Option (List String)
  | some hdr =>
    some (if mcc > hdr.length then
            hdr ++ (List.range' hdr.length (mcc - hdr.length)).map
              (fun ii => default_column_name ++ toString (ii + 1))
          else hdr)
  | none => none

/-- `CSVCache::load` (`csvcache.rs` lines 34–112).  The external CSV reader is
represented by its observable output: `openResult` is the outcome of
`from_path`, `headersResult` the outcome of `reader.headers()`, and
`recordsResults` the stream of per-record outcomes of `reader.records()`. -/
def CSVCache.load (args : Arguments) (openResult : Except String Unit)
    (headersResult : Except String (List String))
    (recordsResults : List (Except String (List String))) :
    Except String CSVCache :=
  match openResult with
  | .error e => .error e
  | .ok _ =>
    let hr := headerRead args headersResult
    let res := collectRows recordsResults ([], initialMax hr)
    .ok { header := padHeader args.default_column_name res.2 hr,
          rows := res.1,
          max_column_count := res.2,
          default_column_name := args.default_column_name }

/-- `CSVCache::longest_row` (`csvcache.rs` lines 115–124). -/
def CSVCache.longest_row (cache : CSVCache) : Nat :=
  cache.rows.foldl (fun max_len row => max max_len row.length)
    (match cache.header with
     | some vec => vec.length
     | none => 0)

/-- The `CSVCache::header` accessor (`csvcache.rs` lines 130–139): the header
entries, or the empty sequence when no header is in effect. -/
def CSVCache.getHeader (cache : CSVCache) : List String :=
  match cache.header with
  | none => []
  | some hdr => hdr

/-- `CSVCache::get_nth_in_rows` (`csvcache.rs` lines 144–154): the nth element
of each row (`none` when the row is too short); the empty vector when the
requested column is beyond `max_column_count`. -/
def CSVCache.get_nth_in_rows (cache : CSVCache) (column : Nat) :
    List (Option String) :=
  if column > cache.max_column_count then []
  else cache.rows.map (fun row => row[column]?)

/-- `CSVCache::column_desc` (`csvcache.rs` lines 158–170): the name and type of
a column — the header entry at `index` when it exists, otherwise the
automatically generated `default_column_name ++ toString (index + 1)`. -/
def CSVCache.column_desc (cache : CSVCache) (index : Nat) : String × String :=
  let auto_name := cache.default_column_name ++ toString (index + 1)
  let column_name :=
    match cache.header with
    | some hdr => (hdr[index]?).getD auto_name
    | none => auto_name
  (column_name, "TEXT")

/-! ## Load invariants -/

/-- `collectRows` never lowers the running maximum. -/
theorem collectRows_le (rs : List (Except String (List String)))
    (rows : List (List String)) (mcc : Nat) :
    mcc ≤ (collectRows rs (rows, mcc)).2 := by
  induction rs generalizing rows mcc with
  | nil => simp [collectRows]
  | cons r rest ih =>
    cases r with
    | ok record =>
      by_cases hrec : record.isEmpty
      · simpa [collectRows, hrec] using ih rows mcc
      · exact le_trans (le_max_left _ _)
          (by simpa [collectRows, hrec] using
            ih (rows ++ [record]) (max mcc record.length))
    | error e => simpa [collectRows] using ih rows mcc

/-- Every row collected by `collectRows` is no wider than the final maximum. -/
theorem collectRows_bound (rs : List (Except String (List String)))
    (rows : List (List String)) (mcc : Nat)
    (hacc : ∀ row ∈ rows, row.length ≤ mcc) :
    ∀ row ∈ (collectRows rs (rows, mcc)).1,
      row.length ≤ (collectRows rs (rows, mcc)).2 := by
  induction rs generalizing rows mcc with
  | nil => simpa [collectRows] using hacc
  | cons r rest ih =>
    cases r with
    | ok record =>
      by_cases hrec : record.isEmpty
      · simpa [collectRows, hrec] using ih rows mcc hacc
      · simp only [collectRows, hrec, if_false]
        refine ih (rows ++ [record]) (max mcc record.length) ?_
        intro row hrow
        rcases List.mem_append.mp hrow with h | h
        · exact le_trans (hacc row h) (le_max_left _ _)
        · simp only [List.mem_singleton] at h
          subst h
          exact le_max_right _ _
    | error e => simpa [collectRows] using ih rows mcc hacc

/-- Unfolding of a successful `CSVCache.load` into its four fields. -/
theorem load_fields (args : Arguments) (openR : Except String Unit)
    (headersR : Except String (List String))
    (recordsR : List (Except String (List String))) (cache : CSVCache)
    (h : CSVCache.load args openR headersR recordsR = .ok cache) :
    cache.header = padHeader args.default_column_name
        (collectRows recordsR ([], initialMax (headerRead args headersR))).2
        (headerRead args headersR) ∧
    cache.rows =
      (collectRows recordsR ([], initialMax (headerRead args headersR))).1 ∧
    cache.max_column_count =
      (collectRows recordsR ([], initialMax (headerRead args headersR))).2 ∧
    cache.default_column_name = args.default_column_name := by
  cases openR with
  | error e => simp [CSVCache.load] at h
  | ok u =>
    simp only [CSVCache.load, Except.ok.injEq] at h
    subst h
    exact ⟨rfl, rfl, rfl, rfl⟩

/-- C1: for every configuration and input on which `load` succeeds, the
resulting cache satisfies `max_column_count ≥ length of the header` and
`max_column_count ≥ length of every stored row`; and whenever some stored row
is wider than the header read from the file, the header is extended in place
with generated names so that its length reaches `max_column_count`. -/
theorem load_invariants (args : Arguments) (openR : Except String Unit)
    (headersR : Except String (List String))
    (recordsR : List (Except String (List String))) (cache : CSVCache)
    (h : CSVCache.load args openR headersR recordsR = .ok cache) :
    cache.getHeader.length ≤ cache.max_column_count ∧
    (∀ row ∈ cache.rows, row.length ≤ cache.max_column_count) ∧
    (∀ hdr0, args.use_header = true → headersR = .ok hdr0 →
      (∃ row ∈ cache.rows, hdr0.length < row.length) →
      cache.header = some (hdr0 ++
        (List.range' hdr0.length (cache.max_column_count - hdr0.length)).map
          (fun ii => args.default_column_name ++ toString (ii + 1))) ∧
      cache.getHeader.length = cache.max_column_count) := by
  obtain ⟨hh, hr, hm, _⟩ := load_fields args openR headersR recordsR cache h
  have hrows : ∀ row ∈ cache.rows, row.length ≤ cache.max_column_count := by
    rw [hr, hm]
    exact collectRows_bound recordsR [] _ (by simp)
  refine ⟨?_, hrows, ?_⟩
  · cases hhr : headerRead args headersR with
    | none =>
      rw [hhr] at hh
      simp only [padHeader] at hh
      simp [CSVCache.getHeader, hh]
    | some hdr =>
      rw [hhr] at hh hm
      have hle : hdr.length ≤
          (collectRows recordsR ([], initialMax (some hdr))).2 := by
        simpa [initialMax] using collectRows_le recordsR [] (initialMax (some hdr))
      simp only [padHeader] at hh
      by_cases hgt :
          (collectRows recordsR ([], initialMax (some hdr))).2 > hdr.length
      · rw [if_pos hgt] at hh
        rw [hm]
        simp only [CSVCache.getHeader, hh, List.length_append, List.length_map,
          List.length_range']
        omega
      · rw [if_neg hgt] at hh
        rw [hm]
        simpa only [CSVCache.getHeader, hh] using hle
  · intro hdr0 huse hok hwide
    have hhr : headerRead args headersR = some hdr0 := by
      simp [headerRead, huse, hok]
    rw [hhr] at hh hm
    have hgt : hdr0.length < cache.max_column_count := by
      obtain ⟨row, hrow, hlt⟩ := hwide
      exact lt_of_lt_of_le hlt (hrows row hrow)
    rw [hm] at hgt
    simp only [padHeader, if_pos hgt] at hh
    refine ⟨by rw [hm]; exact hh, ?_⟩
    rw [hm]
    simp only [CSVCache.getHeader, hh, List.length_append, List.length_map,
      List.length_range']
    omega

/-- Witness for `load_invariants`: loading header `["a","b"]` and one row
`["1","2","3"]` yields a padded header of length `3 = max_column_count`. -/
theorem load_invariants_witness :
    CSVCache.load ⟨true, ',', "column"⟩ (.ok ()) (.ok ["a", "b"])
        [.ok ["1", "2", "3"]] =
      .ok ⟨some ["a", "b", "column3"], [["1", "2", "3"]], 3, "column"⟩ ∧
    (⟨some ["a", "b", "column3"], [["1", "2", "3"]], 3,
        "column"⟩ : CSVCache).getHeader.length ≤
      (⟨some ["a", "b", "column3"], [["1", "2", "3"]], 3,
        "column"⟩ : CSVCache).max_column_count := by
  have hload : CSVCache.load ⟨true, ',', "column"⟩ (.ok ()) (.ok ["a", "b"])
      [.ok ["1", "2", "3"]] =
      .ok ⟨some ["a", "b", "column3"], [["1", "2", "3"]], 3, "column"⟩ := by rfl
  exact ⟨hload, (load_invariants _ _ _ _ _ hload).1⟩

/-- C7: when header use is enabled and reading the header record fails, `load`
continues with no header instead of failing (it still returns a cache); and
for any cache with no header, the `header()` accessor returns the empty
sequence. -/
theorem load_header_error_degrades (args : Arguments)
    (recordsR : List (Except String (List String))) (e : String)
    (huse : args.use_header = true) :
    (∃ cache, CSVCache.load args (.ok ()) (.error e) recordsR = .ok cache ∧
        cache.header = none) ∧
    (∀ cache : CSVCache, cache.header = none → cache.getHeader = []) := by
  constructor
  · refine ⟨_, rfl, ?_⟩
    simp [headerRead, huse, padHeader]
  · intro cache hc
    simp [CSVCache.getHeader, hc]

/-- Witness for `load_header_error_degrades` at a concrete failing header. -/
theorem load_header_error_degrades_witness :
    CSVCache.load ⟨true, ',', "column"⟩ (.ok ()) (.error "boom") [.ok ["x"]] =
      .ok ⟨none, [["x"]], 1, "column"⟩ ∧
    (⟨none, [["x"]], 1, "column"⟩ : CSVCache).getHeader = [] := by
  have h := load_header_error_degrades ⟨true, ',', "column"⟩ [.ok ["x"]] "boom" rfl
  exact ⟨by rfl, h.2 _ rfl⟩

/-- C2: `column_desc` is a total function returning `(name, "TEXT")`, where
`name` is the header entry at `index` verbatim when one exists, and otherwise
the default column prefix concatenated with `index + 1`.  Totality and
determinism are inherent: it is a Lean function. -/
theorem column_desc_spec (cache : CSVCache) (index : Nat) :
    (cache.column_desc index).2 = "TEXT" ∧
    (∀ hdr e, cache.header = some hdr → hdr[index]? = some e →
      (cache.column_desc index).1 = e) ∧
    ((∀ hdr, cache.header = some hdr → hdr[index]? = none) →
      (cache.column_desc index).1 =
        cache.default_column_name ++ toString (index + 1)) := by
  refine ⟨rfl, ?_, ?_⟩
  · intro hdr e hh he
    simp [CSVCache.column_desc, hh, he]
  · intro hnone
    cases hh : cache.header with
    | none => simp [CSVCache.column_desc, hh]
    | some hdr => simp [CSVCache.column_desc, hh, hnone hdr hh]

/-- Witness for `column_desc_spec`: a header name is used verbatim and a
missing entry synthesizes a 1-based generated name. -/
theorem column_desc_spec_witness :
    ((⟨some ["name"], [], 1, "column"⟩ : CSVCache).column_desc 0).1 = "name" ∧
    ((⟨some ["name"], [], 1, "column"⟩ : CSVCache).column_desc 5).1 =
      "column" ++ toString 6 := by
  constructor
  · exact (column_desc_spec ⟨some ["name"], [], 1, "column"⟩ 0).2.1 ["name"]
      "name" rfl rfl
  · exact (column_desc_spec ⟨some ["name"], [], 1, "column"⟩ 5).2.2
      (fun hdr h => by cases h; rfl)

/-- C8: `get_nth_in_rows` returns the empty sequence when the column exceeds
`max_column_count`, and otherwise one entry per stored row in row order, each
entry the row's value at that column or an absence marker when the row is too
short to have that column. -/
theorem get_nth_in_rows_spec (cache : CSVCache) (column : Nat) :
    (column > cache.max_column_count → cache.get_nth_in_rows column = []) ∧
    (column ≤ cache.max_column_count →
      (cache.get_nth_in_rows column).length = cache.rows.length ∧
      ∀ (i : Nat) (row : List String), cache.rows[i]? = some row →
        (cache.get_nth_in_rows column)[i]? =
          some (if hc : column < row.length then some (row.get ⟨column, hc⟩)
                else none)) := by
  constructor
  · intro hgt
    simp [CSVCache.get_nth_in_rows, hgt]
  · intro hle
    have hnot : ¬ column > cache.max_column_count := not_lt.mpr hle
    refine ⟨by simp [CSVCache.get_nth_in_rows, hnot], ?_⟩
    intro i row hi
    simp only [CSVCache.get_nth_in_rows, if_neg hnot]
    rw [List.getElem?_map, hi, Option.map_some']
    congr 1

/-- Witness for `get_nth_in_rows_spec` on a concrete ragged cache. -/
theorem get_nth_in_rows_spec_witness :
    (⟨some ["a", "b"], [["x", "y"], ["z"]], 2,
        "column"⟩ : CSVCache).get_nth_in_rows 3 = [] ∧
    ((⟨some ["a", "b"], [["x", "y"], ["z"]], 2,
        "column"⟩ : CSVCache).get_nth_in_rows 1)[0]? = some (some "y") ∧
    ((⟨some ["a", "b"], [["x", "y"], ["z"]], 2,
        "column"⟩ : CSVCache).get_nth_in_rows 1)[1]? = some none := by
  refine ⟨(get_nth_in_rows_spec _ 3).1 (by decide), ?_, ?_⟩
  · have h := (get_nth_in_rows_spec
      ⟨some ["a", "b"], [["x", "y"], ["z"]], 2, "column"⟩ 1).2 (by decide)
    simpa using h.2 0 ["x", "y"] rfl
  · have h := (get_nth_in_rows_spec
      ⟨some ["a", "b"], [["x", "y"], ["z"]], 2, "column"⟩ 1).2 (by decide)
    simpa using h.2 1 ["z"] rfl

/-- C10: for a loaded cache with at least one row, `get_nth_in_rows` at index
`max_column_count` returns one absence marker per stored row (a non-empty
vector), not the empty sequence: the empty-sequence guard fires only for
indices strictly greater than `max_column_count`. -/
theorem get_nth_boundary (args : Arguments) (openR : Except String Unit)
    (headersR : Except String (List String))
    (recordsR : List (Except String (List String))) (cache : CSVCache)
    (h : CSVCache.load args openR headersR recordsR = .ok cache)
    (hne : cache.rows ≠ []) :
    cache.get_nth_in_rows cache.max_column_count =
      cache.rows.map (fun _ => none) ∧
    cache.get_nth_in_rows cache.max_column_count ≠ [] ∧
    (∀ c, cache.max_column_count < c → cache.get_nth_in_rows c = []) := by
  obtain ⟨hh, hr, hm, hd⟩ := load_fields args openR headersR recordsR cache h
  have hrows : ∀ row ∈ cache.rows, row.length ≤ cache.max_column_count := by
    rw [hr, hm]
    exact collectRows_bound recordsR [] _ (by simp)
  have h1 : cache.get_nth_in_rows cache.max_column_count =
      cache.rows.map (fun _ => none) := by
    simp only [CSVCache.get_nth_in_rows, if_neg (lt_irrefl cache.max_column_count)]
    exact List.map_congr_left
      (fun row hrow => List.getElem?_eq_none (hrows row hrow))
  refine ⟨h1, ?_, ?_⟩
  · rw [h1]
    simpa [List.map_eq_nil_iff] using hne
  · intro c hc
    simp [CSVCache.get_nth_in_rows, hc]

/-- Witness for `get_nth_boundary` on a loaded one-row headerless cache. -/
theorem get_nth_boundary_witness :
    (⟨none, [["x"]], 1, "column"⟩ : CSVCache).get_nth_in_rows 1 = [none] ∧
    (⟨none, [["x"]], 1, "column"⟩ : CSVCache).get_nth_in_rows 2 = [] := by
  have hload : CSVCache.load ⟨false, ',', "column"⟩ (.ok ()) (.ok []) [.ok ["x"]] =
      .ok ⟨none, [["x"]], 1, "column"⟩ := by rfl
  have h := get_nth_boundary ⟨false, ',', "column"⟩ (.ok ()) (.ok []) [.ok ["x"]]
    _ hload (by decide)
  exact ⟨by rw [h.1]; rfl, h.2.2 2 (by decide)⟩

/-! ## Row insertion (`main.rs`) -/

/-- The parameter-building step of `add_row_no_index` (`main.rs` lines
206–229): for each index below `max(len(columns), len(values))`, the column
name is the supplied one when present and non-empty and otherwise
`default_column_name ++ toString ii` (a 0-based suffix), while the value is
the supplied one when present and otherwise the empty string. -/
def add_row_params (columns : List String) (values : List String)
    (default_column_name : String) : List String × List String :=
  let longest_row := max columns.length values.length
  let param_columns := (List.range longest_row).map (fun ii =>
    match columns[ii]? with
    | some value =>
      if value.length > 0 then value
      else default_column_name ++ toString ii
    | none => default_column_name ++ toString ii)
  let param_values := (List.range longest_row).map (fun ii =>
    match values[ii]? with
    | some value => value
    | none => "")
  (param_columns, param_values)

/-- `add_row_no_index` (`main.rs` lines 198–250), modelled as what reaches
the store: the statement text and the list of parameters actually bound to
it.  The placeholder string is `"? "` repeated `longest_row` times with one
trailing space stripped (`strip_suffix(" ").unwrap()` panics when both
inputs are empty, hence the `Option`), and it is interpolated both where the
column-name list belongs and as the VALUES list.  The computed
`param_columns`/`param_values` (see `add_row_params`) are combined with
`Vec::append`, which moves the elements and returns `()` — and that unit
value, not the vector, is what `execute` receives, so the bound parameter
list is empty. -/
def add_row_no_index (table_name : String) (columns : List String)
    (values : List String) (default_column_name : String) :
    Option (String × List String) :=
  let longest_row := max columns.length values.length
  if longest_row = 0 then none
  else
    let placeholders := String.intercalate " " (List.replicate longest_row "?")
    let query := "INSERT INTO \"" ++ table_name ++ "\" (" ++ placeholders ++
      ") VALUES (" ++ placeholders ++ ");"
    let _params := add_row_params columns values default_column_name
    some (query, [])

/-- The table-column construction in `main` (`main.rs` lines 107–110): one
`(name, "TEXT")` descriptor per entry of the cache's header accessor. -/
def table_columns_of (cache : CSVCache) : List (String × String) :=
  cache.getHeader.map (fun h => (h, "TEXT"))

/-- The column list `add_row_no_index` computes is not padded with empty
strings: supplying columns `["a"]` with values `["x","y"]` fills the missing
name with the generated `"column1"` (0-based suffix), not with `""`. -/
theorem add_row_params_columns_generated :
    (add_row_params ["a"] ["x", "y"] "column").1 ≠ ["a", ""] ∧
    (add_row_params ["a"] ["x", "y"] "column").1 = ["a", "column1"] := by
  decide

/-- The parameter lists `add_row_no_index` computes (and then discards —
`Vec::append` returns `()`, see `add_row_no_index`): the values are padded on
the right with empty strings up to `max(len(columns), len(values))`, while
the column list is completed per index with the supplied name when present
and non-empty and with `default_column_name ++ toString ii` (0-based)
otherwise. -/
theorem add_row_padding (columns values : List String) (d : String) :
    (add_row_params columns values d).2.length =
      max columns.length values.length ∧
    (∀ i : Nat, i < values.length →
      ((add_row_params columns values d).2)[i]? = values[i]?) ∧
    (∀ i : Nat, values.length ≤ i → i < max columns.length values.length →
      ((add_row_params columns values d).2)[i]? = some "") ∧
    (∀ i : Nat, i < max columns.length values.length →
      ((add_row_params columns values d).1)[i]? = some (
        match columns[i]? with
        | some v => if v.length > 0 then v else d ++ toString i
        | none => d ++ toString i)) ∧
    (add_row_params ["a", "b", "c"] ["x", "y"] d).2 = ["x", "y", ""] := by
  have hmap : ∀ (n : Nat) (f : Nat → String) (i : Nat), i < n →
      ((List.range n).map f)[i]? = some (f i) := by
    intro n f i hin
    rw [List.getElem?_map, List.getElem?_range hin]
    rfl
  refine ⟨by simp [add_row_params], ?_, ?_, ?_, rfl⟩
  · intro i hi
    have hin : i < max columns.length values.length :=
      lt_of_lt_of_le hi (le_max_right _ _)
    rw [add_row_params, hmap _ _ i hin]
    obtain ⟨v, hv⟩ : ∃ v, values[i]? = some v :=
      ⟨values.get ⟨i, hi⟩, by rw [List.getElem?_eq_getElem hi]; rfl⟩
    rw [hv]
  · intro i hi hin
    rw [add_row_params, hmap _ _ i hin, List.getElem?_eq_none hi]
  · intro i hin
    rw [add_row_params, hmap _ _ i hin]

/-- Instance of `add_row_padding` at the specification's example input. -/
theorem add_row_padding_example :
    (add_row_params ["a", "b", "c"] ["x", "y"] "column").2[2]? = some "" ∧
    (add_row_params ["a", "b", "c"] ["x", "y"] "column").2 = ["x", "y", ""] := by
  exact ⟨(add_row_padding ["a", "b", "c"] ["x", "y"] "column").2.2.1 2
      (by decide) (by decide),
    (add_row_padding ["a", "b", "c"] ["x", "y"] "column").2.2.2.2⟩

/-- C3: evaluating `add_row_no_index` at the claim's own example.  The code
does compute the padded values `["x", "y", ""]` in `param_values` — but the
statement handed to the store is
`INSERT INTO "t" (? ? ?) VALUES (? ? ?);`, with space-separated placeholders
standing where the column-name list belongs, and the bound parameter list is
empty, because `Vec::append` returns `()` and that unit value is what
`execute` receives.  Six placeholders with zero bound parameters in a
malformed statement: a conventional engine rejects it, so contrary to the
claim every call errors and no row — in particular no `(x, y, "")` — is ever
stored. -/
theorem add_row_no_index_failing_input :
    add_row_no_index "t" ["a", "b", "c"] ["x", "y"] "column" =
      some ("INSERT INTO \"t\" (? ? ?) VALUES (? ? ?);", []) ∧
    (add_row_params ["a", "b", "c"] ["x", "y"] "column").2 = ["x", "y", ""] ∧
    (("INSERT INTO \"t\" (? ? ?) VALUES (? ? ?);".toList.filter
        (fun c => c = '?')).length = 6) := by
  refine ⟨by rfl, by decide, by decide⟩

/-- C4 counterexample: for the headerless cache `⟨none, [["x"]], 1, "column"⟩`
the insertion path binds the generated name `"column0"` (0-based suffix) at
index 0, while the claimed single naming rule (`column_desc`) yields
`"column1"` (1-based suffix), and the creation path declares no data column
at that index at all. -/
theorem naming_consistency_counterexample :
    (add_row_params (⟨none, [["x"]], 1, "column"⟩ : CSVCache).getHeader ["x"]
        (⟨none, [["x"]], 1, "column"⟩ : CSVCache).default_column_name).1[0]? =
      some "column0" ∧
    ((⟨none, [["x"]], 1, "column"⟩ : CSVCache).column_desc 0).1 = "column1" ∧
    (table_columns_of ⟨none, [["x"]], 1, "column"⟩)[0]? = none ∧
    ("column0" : String) ≠ "column1" := by
  decide

/-- A non-empty string has positive length. -/
theorem string_length_pos_of_ne_empty (s : String) (h : s ≠ "") :
    0 < s.length := by
  rcases Nat.eq_zero_or_pos s.length with h0 | h0
  · cases s with
    | mk data =>
      cases data with
      | nil => exact absurd rfl h
      | cons c cs => simp [String.length] at h0
  · exact h0

/-- C4 amended: the creation path and the binding path agree exactly on
indices where the header has a non-empty entry: there the creation
descriptor, the bound column name, and `column_desc` all use the header
entry verbatim.  They diverge elsewhere: at an index whose header entry
exists but is empty, the creation path declares a `""`-named column and
`column_desc` returns `""` verbatim, while the binding path synthesizes
`default_column_name ++ toString i` (0-based); at an index with no header
entry — a too-short header, or no header at all — `column_desc` synthesizes
the 1-based generated name, the binding path the 0-based one, and the
creation path declares no column. -/
theorem naming_consistency (cache : CSVCache) (values : List String)
    (i : Nat) :
    (∀ hdr : List String, cache.header = some hdr →
      (∀ hi : i < hdr.length,
        (hdr.get ⟨i, hi⟩ ≠ "" →
          (table_columns_of cache)[i]? = some (hdr.get ⟨i, hi⟩, "TEXT") ∧
          (add_row_params cache.getHeader values
              cache.default_column_name).1[i]? = some (hdr.get ⟨i, hi⟩) ∧
          (cache.column_desc i).1 = hdr.get ⟨i, hi⟩) ∧
        (hdr.get ⟨i, hi⟩ = "" →
          (table_columns_of cache)[i]? = some ("", "TEXT") ∧
          (cache.column_desc i).1 = "" ∧
          (add_row_params cache.getHeader values
              cache.default_column_name).1[i]? =
            some (cache.default_column_name ++ toString i))) ∧
      (hdr.length ≤ i →
        (table_columns_of cache)[i]? = none ∧
        (cache.column_desc i).1 =
          cache.default_column_name ++ toString (i + 1) ∧
        (i < max hdr.length values.length →
          (add_row_params cache.getHeader values
              cache.default_column_name).1[i]? =
            some (cache.default_column_name ++ toString i)))) ∧
    (cache.header = none →
      table_columns_of cache = [] ∧
      (cache.column_desc i).1 =
        cache.default_column_name ++ toString (i + 1) ∧
      (i < values.length →
        (add_row_params cache.getHeader values
            cache.default_column_name).1[i]? =
          some (cache.default_column_name ++ toString i))) := by
  have hmap : ∀ (n : Nat) (f : Nat → String), i < n →
      ((List.range n).map f)[i]? = some (f i) := by
    intro n f hin
    rw [List.getElem?_map, List.getElem?_range hin]
    rfl
  constructor
  · intro hdr hh
    have hgh : cache.getHeader = hdr := by simp [CSVCache.getHeader, hh]
    constructor
    · intro hi
      have hi? : hdr[i]? = some (hdr.get ⟨i, hi⟩) := by
        rw [List.getElem?_eq_getElem hi]
        rfl
      constructor
      · intro hne
        have hpos : 0 < (hdr.get ⟨i, hi⟩).length :=
          string_length_pos_of_ne_empty _ hne
        refine ⟨?_, ?_, ?_⟩
        · rw [table_columns_of, hgh, List.getElem?_map, hi?]
          rfl
        · have hin : i < max cache.getHeader.length values.length := by
            rw [hgh]
            exact lt_of_lt_of_le hi (le_max_left _ _)
          rw [add_row_params, hmap _ _ hin, hgh, hi?]
          simp only [List.get_eq_getElem] at hpos
          simp [hpos]
        · simp [CSVCache.column_desc, hh, hi?]
      · intro hemp
        refine ⟨?_, ?_, ?_⟩
        · rw [table_columns_of, hgh, List.getElem?_map, hi?, hemp]
          rfl
        · simp [CSVCache.column_desc, hh, hi?]
          exact hemp
        · have hin : i < max cache.getHeader.length values.length := by
            rw [hgh]
            exact lt_of_lt_of_le hi (le_max_left _ _)
          rw [add_row_params, hmap _ _ hin, hgh, hi?, hemp]
          rfl
    · intro hle
      have hi? : hdr[i]? = none := List.getElem?_eq_none hle
      refine ⟨?_, ?_, ?_⟩
      · rw [table_columns_of, hgh, List.getElem?_map, hi?]
        rfl
      · simp [CSVCache.column_desc, hh, hi?]
      · intro hin
        rw [add_row_params, hmap _ _ (by rw [hgh]; exact hin), hgh, hi?]
  · intro hh
    have hgh : cache.getHeader = [] := by simp [CSVCache.getHeader, hh]
    refine ⟨?_, ?_, ?_⟩
    · rw [table_columns_of, hgh]
      rfl
    · simp [CSVCache.column_desc, hh]
    · intro hin
      have hin2 : i < max cache.getHeader.length values.length := by
        rw [hgh]
        simpa using hin
      rw [add_row_params, hmap _ _ hin2, hgh]
      rfl

/-- Witness for `naming_consistency` on the header `["a", ""]`: the
non-empty entry is used verbatim by all three paths, while at the empty
entry the creation path declares a `""`-named column and `column_desc`
returns `""` verbatim, but the binding path synthesizes the 0-based
`"col1"`. -/
theorem naming_consistency_witness :
    (table_columns_of ⟨some ["a", ""], [], 2, "col"⟩)[0]? =
      some ("a", "TEXT") ∧
    (add_row_params (⟨some ["a", ""], [], 2, "col"⟩ : CSVCache).getHeader
        ["x", "y"]
        (⟨some ["a", ""], [], 2, "col"⟩ : CSVCache).default_column_name).1[0]? =
      some "a" ∧
    ((⟨some ["a", ""], [], 2, "col"⟩ : CSVCache).column_desc 0).1 = "a" ∧
    (table_columns_of ⟨some ["a", ""], [], 2, "col"⟩)[1]? =
      some ("", "TEXT") ∧
    ((⟨some ["a", ""], [], 2, "col"⟩ : CSVCache).column_desc 1).1 = "" ∧
    (add_row_params (⟨some ["a", ""], [], 2, "col"⟩ : CSVCache).getHeader
        ["x", "y"]
        (⟨some ["a", ""], [], 2, "col"⟩ : CSVCache).default_column_name).1[1]? =
      some "col1" := by
  have h0 := (naming_consistency ⟨some ["a", ""], [], 2, "col"⟩
    ["x", "y"] 0).1 ["a", ""] rfl
  have h1 := (naming_consistency ⟨some ["a", ""], [], 2, "col"⟩
    ["x", "y"] 1).1 ["a", ""] rfl
  obtain ⟨ha1, ha2, ha3⟩ := (h0.1 (by decide)).1 (by decide)
  obtain ⟨hb1, hb2, hb3⟩ := (h1.1 (by decide)).2 (by decide)
  exact ⟨ha1, ha2, ha3, hb1, hb2, hb3⟩

/-! ## Schema/Row writer (`sql.rs`)

The SQLite connection is an external collaborator; it is modelled as an
oracle (`Conn`) assigning an outcome to each statement the code issues,
indexed by the position of the current record in the input slice.  The
statements actually executed against the store are collected in a trace of
`SqlOp`s (an executed statement appears in the trace exactly when the store
reported it executed, i.e. its oracle outcome is `ok`). -/

/-- Outcomes the connection gives to the statements `populate_table`
(`sql.rs` lines 25–91) issues while processing the record at position `k`. -/
structure Conn where
  /-- `prepare_cached("SELECT last_insert_rowid();")` — propagated with `?`. -/
  prepSelect : Nat → Except String Unit
  /-- `query_row` on that statement; an error is ignored (id starts at 0). -/
  lastInsertRowid : Nat → Except String Int
  /-- prepare + execute of `INSERT INTO "…" ("id") VALUES (…)` — `?`. -/
  insertRecord : Nat → Int → Except String Unit
  /-- prepare + execute of `BEGIN TRANSACTION;` — `?`. -/
  beginTx : Nat → Except String Unit
  /-- `conn.execute` of the per-column `UPDATE`, giving the number of rows
  altered; an error here is handled, not propagated. -/
  updateExec : Nat → Nat → Except String Nat
  /-- prepare + execute of `END TRANSACTION;` — `?`. -/
  endTx : Nat → Except String Unit

/-- A statement executed against the store, tagged with the position of the
record being processed. -/
inductive SqlOp where
  | insertRecord (row : Nat) (id : Int)
  | beginTx (row : Nat)
  | update (row : Nat) (col : Nat) (column : String) (value : String)
  | endTx (row : Nat)
  | rollback (row : Nat)
deriving Repr, DecidableEq

/-- The record position an executed statement belongs to. -/
def SqlOp.rowIdx : SqlOp → Nat
  | .insertRecord k _ => k
  | .beginTx k => k
  | .update k _ _ _ => k
  | .endTx k => k
  | .rollback k => k

/-- Whether an executed statement is a rollback. -/
def SqlOp.isRollback : SqlOp → Bool
  | .rollback _ => true
  | _ => false

/-- The id computed for the new record (`sql.rs` lines 38–45):
`last_insert_rowid() + 1`, or 0 when the query errors. -/
def rowId (conn : Conn) (k : Nat) : Int :=
  match conn.lastInsertRowid k with
  | .ok id => id + 1
  | .error _ => 0

/-- The per-column `UPDATE` loop of `populate_table` (`sql.rs` lines 55–81):
on `Ok(1)` the update counts as success, on `Ok(x)` a warning is logged and
it still counts as success, on `Err` the loop breaks with `success = false`.
Returns the successfully executed updates and the final success flag. -/
def updateLoop (conn : Conn) (k : Nat) :
    List (String × String) → Nat → List SqlOp × Bool
  | [], _ => ([], true)
  | (column, value) :: rest, i =>
    match conn.updateExec k i with
    | .ok _ =>
      let res := updateLoop conn k rest (i + 1)
      (.update k i column value :: res.1, res.2)
    | .error _ => ([], false)

/-- The body of the `for row in records` loop of `populate_table` (`sql.rs`
lines 27–89) for a record that passed the width check: compute the id, insert
the new record, begin a transaction, run the update loop, end the
transaction.  Errors of the scaffolding statements are propagated with `?`
(aborting the whole call); `updateExec` errors only clear the success flag. -/
def processRow (conn : Conn) (k : Nat) (columns row : List String) :
    List SqlOp × Except String Bool :=
  match conn.prepSelect k with
  | .error e => ([], .error e)
  | .ok _ =>
    let id := rowId conn k
    match conn.insertRecord k id with
    | .error e => ([], .error e)
    | .ok _ =>
      match conn.beginTx k with
      | .error e => ([.insertRecord k id], .error e)
      | .ok _ =>
        let res := updateLoop conn k (columns.zip row) 0
        match conn.endTx k with
        | .error e => (.insertRecord k id :: .beginTx k :: res.1, .error e)
        | .ok _ =>
          (.insertRecord k id :: .beginTx k :: (res.1 ++ [.endTx k]),
           .ok res.2)

/-- The record loop of `populate_table` (`sql.rs` lines 26–90): a record whose
length is zero or differs from the column count is skipped outright (no
statement is issued for it); otherwise the record is processed and
`records_written` is incremented exactly when every update succeeded. -/
def populate_go (conn : Conn) (columns : List String) :
    List (List String) → Nat → Nat → List SqlOp × Except String Nat
  | [], _, records_written => ([], .ok records_written)
  | row :: rest, k, records_written =>
    if row.length = 0 ∨ row.length ≠ columns.length then
      populate_go conn columns rest (k + 1) records_written
    else
      match processRow conn k columns row with
      | (ops, .error e) => (ops, .error e)
      | (ops, .ok success) =>
        let res := populate_go conn columns rest (k + 1)
          (if success then records_written + 1 else records_written)
        (ops ++ res.1, res.2)

/-- `populate_table` (`sql.rs` lines 25–91): the trace of executed statements
and the returned `records_written`. -/
def populate_table (conn : Conn) (records : List (List String))
    (columns : List String) : List SqlOp × Except String Nat :=
  populate_go conn columns records 0 0

/-- The width check of both bulk-populate entry points (`sql.rs` lines 31–35,
`main.rs` lines 181–186): a row participates only when it is non-empty and
exactly as wide as the column list. -/
def shapeOk (columns row : List String) : Bool :=
  !(row.length == 0 || row.length != columns.length)

/-- Whether an `Except` result is a success. -/
def isOkB {ε α : Type} : Except ε α → Bool
  | .ok _ => true
  | .error _ => false

/-- Specification of the success flag: every one of the `n` updates for the
record at position `k` succeeded. -/
def rowSuccess (conn : Conn) (k : Nat) (n : Nat) : Bool :=
  (List.range' 0 n).all (fun i => isOkB (conn.updateExec k i))

/-- Specification of `records_written`: the number of records that pass the
width check and whose updates all succeed, positions counted from `k`. -/
def countWritten (conn : Conn) (columns : List String) :
    List (List String) → Nat → Nat
  | [], _ => 0
  | row :: rest, k =>
    (if shapeOk columns row && rowSuccess conn k columns.length then 1 else 0) +
      countWritten conn columns rest (k + 1)

/-- The scaffolding statements (select-prepare, record insert, begin, end)
all succeed — the situation the error-handling claims quantify over, since an
error in one of them is propagated with `?` and aborts the whole call. -/
def scaffoldOk (conn : Conn) : Prop :=
  ∀ k : Nat, conn.prepSelect k = .ok () ∧
    (∀ id : Int, conn.insertRecord k id = .ok ()) ∧
    conn.beginTx k = .ok () ∧ conn.endTx k = .ok ()

/-- `populate_table` from `main.rs` (lines 176–196): the same width check,
but each surviving row is written with a single `add_row_no_index` call whose
outcome is the oracle `addRow`; a failed call is logged and skipped,
never propagated. -/
def populate_main_go (addRow : Nat → Except String Unit)
    (columns : List String) :
    List (List String) → Nat → Nat → Except String Nat
  | [], _, records_written => .ok records_written
  | row :: rest, k, records_written =>
    if row.length = 0 ∨ row.length ≠ columns.length then
      populate_main_go addRow columns rest (k + 1) records_written
    else
      match addRow k with
      | .error _ => populate_main_go addRow columns rest (k + 1) records_written
      | .ok _ => populate_main_go addRow columns rest (k + 1)
          (records_written + 1)

/-- `populate_table` (`main.rs` lines 176–196). -/
def populate_table_main (addRow : Nat → Except String Unit)
    (records : List (List String)) (columns : List String) :
    Except String Nat :=
  populate_main_go addRow columns records 0 0

/-- Specification of `records_written` for the `main.rs` entry point. -/
def countWrittenMain (addRow : Nat → Except String Unit)
    (columns : List String) : List (List String) → Nat → Nat
  | [], _ => 0
  | row :: rest, k =>
    (if shapeOk columns row && isOkB (addRow k) then 1 else 0) +
      countWrittenMain addRow columns rest (k + 1)

/-- The success flag of the update loop is true exactly when all updates in
the processed range succeed. -/
theorem updateLoop_success (conn : Conn) (k : Nat)
    (pairs : List (String × String)) (i : Nat) :
    (updateLoop conn k pairs i).2 =
      (List.range' i pairs.length).all
        (fun j => isOkB (conn.updateExec k j)) := by
  induction pairs generalizing i with
  | nil => simp [updateLoop]
  | cons p rest ih =>
    obtain ⟨column, value⟩ := p
    rw [List.length_cons, List.range'_succ, List.all_cons]
    cases hu : conn.updateExec k i with
    | ok n => simp [updateLoop, hu, isOkB, ih (i + 1)]
    | error e => simp [updateLoop, hu, isOkB]

/-- Every statement the update loop executes belongs to record `k` and is not
a rollback. -/
theorem updateLoop_ops (conn : Conn) (k : Nat)
    (pairs : List (String × String)) (i : Nat) :
    ∀ op ∈ (updateLoop conn k pairs i).1,
      op.rowIdx = k ∧ op.isRollback = false := by
  induction pairs generalizing i with
  | nil => simp [updateLoop]
  | cons p rest ih =>
    obtain ⟨column, value⟩ := p
    intro op hop
    cases hu : conn.updateExec k i with
    | ok n =>
      simp only [updateLoop, hu, List.mem_cons] at hop
      rcases hop with rfl | hop
      · exact ⟨rfl, rfl⟩
      · exact ih (i + 1) op hop
    | error e => simp [updateLoop, hu] at hop

/-- When the scaffolding statements succeed, processing one record inserts
the new record with its computed id, begins a transaction, runs the update
loop, and ends the transaction — in that order — returning the success
flag. -/
theorem processRow_scaffold (conn : Conn) (H : scaffoldOk conn) (k : Nat)
    (columns row : List String) :
    processRow conn k columns row =
      (.insertRecord k (rowId conn k) :: .beginTx k ::
        ((updateLoop conn k (columns.zip row) 0).1 ++ [.endTx k]),
       .ok (updateLoop conn k (columns.zip row) 0).2) := by
  obtain ⟨h1, h2, h3, h4⟩ := H k
  simp [processRow, h1, h2 (rowId conn k), h3, h4]

/-- Every statement executed while processing one record (with working
scaffolding) belongs to that record and is not a rollback. -/
theorem processRow_ops (conn : Conn) (H : scaffoldOk conn) (k : Nat)
    (columns row : List String) :
    ∀ op ∈ (processRow conn k columns row).1,
      op.rowIdx = k ∧ op.isRollback = false := by
  intro op hop
  rw [processRow_scaffold conn H k columns row] at hop
  simp only [List.mem_cons, List.mem_append, List.mem_singleton,
    List.not_mem_nil, or_false] at hop
  rcases hop with rfl | rfl | hop | rfl
  · exact ⟨rfl, rfl⟩
  · exact ⟨rfl, rfl⟩
  · exact updateLoop_ops conn k _ 0 op hop
  · exact ⟨rfl, rfl⟩

/-- The width check as the loop's skip condition. -/
theorem shapeOk_iff (columns row : List String) :
    shapeOk columns row = true ↔
      ¬(row.length = 0 ∨ row.length ≠ columns.length) := by
  simp [shapeOk, not_or]

/-- With working scaffolding, `populate_go` returns the running counter plus
the number of remaining records that pass the width check and whose updates
all succeed. -/
theorem populate_go_count (conn : Conn) (H : scaffoldOk conn)
    (columns : List String) (records : List (List String)) (k w : Nat) :
    (populate_go conn columns records k w).2 =
      .ok (w + countWritten conn columns records k) := by
  induction records generalizing k w with
  | nil => simp [populate_go, countWritten]
  | cons row rest ih =>
    by_cases hc : row.length = 0 ∨ row.length ≠ columns.length
    · have hshape : shapeOk columns row = false :=
        Bool.eq_false_iff.mpr (fun hsh => (shapeOk_iff columns row).mp hsh hc)
      rw [populate_go, if_pos hc, ih (k + 1) w]
      simp [countWritten, hshape]
    · have hshape : shapeOk columns row = true :=
        (shapeOk_iff columns row).mpr hc
      have hlen : row.length = columns.length := by
        rcases not_or.mp hc with ⟨h0, hne⟩
        exact not_not.mp hne
      have hzip : (columns.zip row).length = columns.length := by
        rw [List.length_zip, hlen, min_self]
      rw [populate_go, if_neg hc, processRow_scaffold conn H k columns row]
      simp only []
      rw [ih (k + 1)]
      have hsucc : (updateLoop conn k (columns.zip row) 0).2 =
          rowSuccess conn k columns.length := by
        rw [updateLoop_success, hzip, rowSuccess]
      rw [hsucc]
      simp only [countWritten, hshape, Bool.true_and]
      cases hrs : rowSuccess conn k columns.length with
      | false => simp
      | true => simp [Nat.add_assoc, Nat.add_comm 1 _, Nat.add_left_comm]

/-- Unfolding of the loop on a record that fails the width check: it is
skipped outright — no statement, no counter change. -/
theorem populate_go_cons_skip (conn : Conn) (columns row : List String)
    (rest : List (List String)) (k w : Nat)
    (hc : row.length = 0 ∨ row.length ≠ columns.length) :
    populate_go conn columns (row :: rest) k w =
      populate_go conn columns rest (k + 1) w := by
  rw [populate_go, if_pos hc]

/-- Unfolding of the loop on a surviving record with working scaffolding. -/
theorem populate_go_cons_ok (conn : Conn) (H : scaffoldOk conn)
    (columns row : List String) (rest : List (List String)) (k w : Nat)
    (hc : ¬(row.length = 0 ∨ row.length ≠ columns.length)) :
    populate_go conn columns (row :: rest) k w =
      ((SqlOp.insertRecord k (rowId conn k) :: SqlOp.beginTx k ::
          ((updateLoop conn k (columns.zip row) 0).1 ++ [SqlOp.endTx k])) ++
        (populate_go conn columns rest (k + 1)
          (if (updateLoop conn k (columns.zip row) 0).2 then w + 1
            else w)).1,
       (populate_go conn columns rest (k + 1)
          (if (updateLoop conn k (columns.zip row) 0).2 then w + 1
            else w)).2) := by
  rw [populate_go, if_neg hc, processRow_scaffold conn H k columns row]

/-- With working scaffolding, every executed statement belongs to a record
that passed the width check (skipped records produce no statement at all),
and none is a rollback. -/
theorem populate_go_ops (conn : Conn) (H : scaffoldOk conn)
    (columns : List String) (records : List (List String)) (k w : Nat) :
    ∀ op ∈ (populate_go conn columns records k w).1,
      (∃ j row, op.rowIdx = k + j ∧ records[j]? = some row ∧
        shapeOk columns row = true) ∧ op.isRollback = false := by
  induction records generalizing k w with
  | nil => simp [populate_go]
  | cons row rest ih =>
    intro op hop
    by_cases hc : row.length = 0 ∨ row.length ≠ columns.length
    · rw [populate_go_cons_skip conn columns row rest k w hc] at hop
      obtain ⟨⟨j, row', hj, hrow', hsh⟩, hrb⟩ := ih (k + 1) w op hop
      refine ⟨⟨j + 1, row', by omega, ?_, hsh⟩, hrb⟩
      rw [List.getElem?_cons_succ]
      exact hrow'
    · have hshape : shapeOk columns row = true :=
        (shapeOk_iff columns row).mpr hc
      have hfst : (processRow conn k columns row).1 =
          SqlOp.insertRecord k (rowId conn k) :: SqlOp.beginTx k ::
            ((updateLoop conn k (columns.zip row) 0).1 ++ [SqlOp.endTx k]) := by
        rw [processRow_scaffold conn H k columns row]
      rw [populate_go_cons_ok conn H columns row rest k w hc, ← hfst] at hop
      simp only [List.mem_append] at hop
      rcases hop with hop | hop
      · obtain ⟨hidx, hrb⟩ := processRow_ops conn H k columns row op hop
        refine ⟨⟨0, row, by omega, ?_, hshape⟩, hrb⟩
        rw [List.getElem?_cons_zero]
      · obtain ⟨⟨j, row', hj, hrow', hsh⟩, hrb⟩ := ih (k + 1) _ op hop
        refine ⟨⟨j + 1, row', by omega, ?_, hsh⟩, hrb⟩
        rw [List.getElem?_cons_succ]
        exact hrow'

/-- With working scaffolding, the statements executed for the record at
position `j` (when it passes the width check) are exactly the ones
`processRow` issues for it. -/
theorem populate_go_filter (conn : Conn) (H : scaffoldOk conn)
    (columns : List String) (records : List (List String)) (k w j : Nat)
    (row : List String) (hj : records[j]? = some row)
    (hs : shapeOk columns row = true) :
    (populate_go conn columns records k w).1.filter
        (fun op => op.rowIdx == k + j) =
      (processRow conn (k + j) columns row).1 := by
  induction records generalizing k w j with
  | nil => simp at hj
  | cons row0 rest ih =>
    cases j with
    | zero =>
      rw [List.getElem?_cons_zero, Option.some_inj] at hj
      subst hj
      have hc := (shapeOk_iff columns row0).mp hs
      have hfst : (processRow conn k columns row0).1 =
          SqlOp.insertRecord k (rowId conn k) :: SqlOp.beginTx k ::
            ((updateLoop conn k (columns.zip row0) 0).1 ++ [SqlOp.endTx k]) := by
        rw [processRow_scaffold conn H k columns row0]
      rw [populate_go_cons_ok conn H columns row0 rest k w hc, Nat.add_zero,
        ← hfst, List.filter_append]
      have hl : (processRow conn k columns row0).1.filter
          (fun op => op.rowIdx == k) = (processRow conn k columns row0).1 :=
        List.filter_eq_self.mpr (fun op hop => by
          rw [(processRow_ops conn H k columns row0 op hop).1]
          exact beq_self_eq_true k)
      have hr : (populate_go conn columns rest (k + 1)
          (if (updateLoop conn k (columns.zip row0) 0).2 then w + 1
            else w)).1.filter (fun op => op.rowIdx == k) = [] := by
        rw [List.filter_eq_nil_iff]
        intro op hop
        obtain ⟨⟨j', row', hj', hrow', hsh'⟩, _⟩ :=
          populate_go_ops conn H columns rest (k + 1) _ op hop
        simp only [beq_iff_eq]
        omega
      rw [hl, hr, List.append_nil]
    | succ j' =>
      rw [List.getElem?_cons_succ] at hj
      have harith : k + (j' + 1) = (k + 1) + j' := by omega
      by_cases hc : row0.length = 0 ∨ row0.length ≠ columns.length
      · rw [populate_go_cons_skip conn columns row0 rest k w hc, harith]
        exact ih (k + 1) w j' hj
      · have hfst : (processRow conn k columns row0).1 =
            SqlOp.insertRecord k (rowId conn k) :: SqlOp.beginTx k ::
              ((updateLoop conn k (columns.zip row0) 0).1 ++
                [SqlOp.endTx k]) := by
          rw [processRow_scaffold conn H k columns row0]
        rw [populate_go_cons_ok conn H columns row0 rest k w hc, ← hfst,
          List.filter_append]
        have hl : (processRow conn k columns row0).1.filter
            (fun op => op.rowIdx == k + (j' + 1)) = [] := by
          rw [List.filter_eq_nil_iff]
          intro op hop
          have hidx := (processRow_ops conn H k columns row0 op hop).1
          simp only [beq_iff_eq]
          omega
        rw [hl, List.nil_append, harith]
        exact ih (k + 1) _ j' hj

/-- The `main.rs` bulk-populate loop returns the running counter plus the
number of remaining records that pass the width check and whose single
insertion call succeeds. -/
theorem populate_main_go_count (addRow : Nat → Except String Unit)
    (columns : List String) (records : List (List String)) (k w : Nat) :
    populate_main_go addRow columns records k w =
      .ok (w + countWrittenMain addRow columns records k) := by
  induction records generalizing k w with
  | nil => simp [populate_main_go, countWrittenMain]
  | cons row rest ih =>
    by_cases hc : row.length = 0 ∨ row.length ≠ columns.length
    · have hshape : shapeOk columns row = false :=
        Bool.eq_false_iff.mpr (fun hsh => (shapeOk_iff columns row).mp hsh hc)
      rw [populate_main_go, if_pos hc, ih (k + 1) w]
      simp [countWrittenMain, hshape]
    · have hshape : shapeOk columns row = true :=
        (shapeOk_iff columns row).mpr hc
      cases ha : addRow k with
      | error e =>
        rw [populate_main_go, if_neg hc]
        simp only [ha]
        rw [ih (k + 1) w]
        simp [countWrittenMain, hshape, isOkB, ha]
      | ok u =>
        rw [populate_main_go, if_neg hc]
        simp only [ha]
        rw [ih (k + 1) (w + 1)]
        simp only [countWrittenMain, hshape, isOkB, ha, Bool.and_true,
          if_true, Except.ok.injEq]
        omega

/-- C5: in the bulk-populate entry points, a record whose field count is zero
or differs from the declared column count is skipped entirely (it triggers no
statement and is not counted); an error while writing one record's values
only leaves that record uncounted, never aborting the remaining records; and
`records_written` is exactly the number of records whose writes all
succeeded.  `scaffoldOk` isolates the per-value write errors the claim is
about: errors of the bookkeeping statements are propagated with `?` in the
source. -/
theorem populate_counts (conn : Conn) (records : List (List String))
    (columns : List String) (addRow : Nat → Except String Unit)
    (H : scaffoldOk conn) :
    (populate_table conn records columns).2 =
      .ok (countWritten conn columns records 0) ∧
    (∀ op ∈ (populate_table conn records columns).1,
      ∃ row, records[op.rowIdx]? = some row ∧
        shapeOk columns row = true) ∧
    populate_table_main addRow records columns =
      .ok (countWrittenMain addRow columns records 0) := by
  refine ⟨?_, ?_, ?_⟩
  · rw [populate_table, populate_go_count conn H columns records 0 0,
      Nat.zero_add]
  · intro op hop
    obtain ⟨⟨j, row, hj, hrow, hsh⟩, _⟩ :=
      populate_go_ops conn H columns records 0 0 op hop
    rw [Nat.zero_add] at hj
    exact ⟨row, by rw [hj]; exact hrow, hsh⟩
  · rw [populate_table_main,
      populate_main_go_count addRow columns records 0 0, Nat.zero_add]

/-- A concrete connection: all scaffolding succeeds, and the update of
column 1 of record 0 fails; every other update succeeds altering one row. -/
def connW : Conn :=
  { prepSelect := fun _ => .ok ()
    lastInsertRowid := fun _ => .error "no last rowid"
    insertRecord := fun _ _ => .ok ()
    beginTx := fun _ => .ok ()
    updateExec := fun k i =>
      if k = 0 ∧ i = 1 then .error "constraint violation" else .ok 1
    endTx := fun _ => .ok () }

/-- Witness for `populate_counts`: of three records, the first fails on its
second column update, the second succeeds, the third has the wrong width —
one record is counted, and processing never aborts. -/
theorem populate_counts_witness :
    (populate_table connW [["x", "y"], ["u", "v"], ["w"]] ["a", "b"]).2 =
      .ok 1 ∧
    populate_table_main (fun k => if k = 0 then .error "e" else .ok ())
      [["x", "y"], ["u", "v"], ["w"]] ["a", "b"] = .ok 1 := by
  have H : scaffoldOk connW := fun k => ⟨rfl, fun _ => rfl, rfl, rfl⟩
  have h := populate_counts connW [["x", "y"], ["u", "v"], ["w"]] ["a", "b"]
    (fun k => if k = 0 then .error "e" else .ok ()) H
  exact ⟨by rw [h.1]; rfl, by rw [h.2.2]; rfl⟩

/-- C9: with working scaffolding, the statements executed for any processed
record are exactly: the insert of the new record with its explicitly
computed id, then BEGIN TRANSACTION, then the successfully executed column
updates (the loop stops at the first failing one), then END TRANSACTION —
the insert precedes the transaction, the transaction is ended even for a
record with a failed column update, and no rollback is ever issued; hence a
record counted as not written still leaves its inserted id row and its
committed updates behind. -/
theorem populate_insert_outside_transaction (conn : Conn)
    (records : List (List String)) (columns : List String) (k : Nat)
    (row : List String) (H : scaffoldOk conn)
    (hk : records[k]? = some row) (hs : shapeOk columns row = true) :
    (populate_table conn records columns).1.filter
        (fun op => op.rowIdx == k) =
      SqlOp.insertRecord k (rowId conn k) :: SqlOp.beginTx k ::
        ((updateLoop conn k (columns.zip row) 0).1 ++ [SqlOp.endTx k]) ∧
    (populate_table conn records columns).1.all
      (fun op => !op.isRollback) = true := by
  constructor
  · have h := populate_go_filter conn H columns records 0 0 k row hk hs
    rw [Nat.zero_add] at h
    rw [populate_table, h, processRow_scaffold conn H k columns row]
  · rw [List.all_eq_true]
    intro op hop
    have hrb := (populate_go_ops conn H columns records 0 0 op hop).2
    simp [hrb]

/-- Witness for `populate_insert_outside_transaction`: record 0's second
column update fails, yet its trace is insert–begin–first update–end, with no
rollback anywhere. -/
theorem populate_insert_outside_transaction_witness :
    (populate_table connW [["x", "y"]] ["a", "b"]).1.filter
        (fun op => op.rowIdx == 0) =
      [SqlOp.insertRecord 0 0, SqlOp.beginTx 0, SqlOp.update 0 0 "a" "x",
        SqlOp.endTx 0] ∧
    (populate_table connW [["x", "y"]] ["a", "b"]).1.all
      (fun op => !op.isRollback) = true := by
  have H : scaffoldOk connW := fun k => ⟨rfl, fun _ => rfl, rfl, rfl⟩
  have h := populate_insert_outside_transaction connW [["x", "y"]]
    ["a", "b"] 0 ["x", "y"] H rfl rfl
  exact ⟨by rw [h.1]; rfl, h.2⟩

/-! ## Table creation (`sql.rs` lines 8–21) -/

/-- The statement text `create_table` builds (`sql.rs` lines 9–15): a single
CREATE TABLE IF NOT EXISTS statement whose column list starts with the
double-quoted `id` INTEGER PRIMARY KEY AUTOINCREMENT column and continues
with one `"name" type` fragment per descriptor, joined with `", "`; the raw
string's surrounding whitespace is kept verbatim. -/
def create_table_query (table_name : String)
    (table_columns : List (String × String)) : String :=
  "\n    CREATE TABLE IF NOT EXISTS \"" ++ table_name ++
    "\" (\"id\" INTEGER PRIMARY KEY AUTOINCREMENT, " ++
    String.intercalate ", "
      (table_columns.map (fun p => "\"" ++ p.1 ++ "\" " ++ p.2)) ++
    ");\n    "

/-- Modelled from the spec: the relational store is "a conventional SQL
engine reachable via a connection handle" — an external collaborator.  Its
visible state is the set of existing tables with their column lists. -/
abbrev SqlStore := List (String × List (String × String))

/-- Modelled from the spec: whether a table of this name already exists. -/
def storeHasTable (store : SqlStore) (table_name : String) : Bool :=
  store.any (fun t => t.1 == table_name)

/-- Modelled from the spec: executing a CREATE TABLE IF NOT EXISTS statement
creates the table when absent and is a successful no-op when a table of that
name already exists. -/
def execCreateIfNotExists (store : SqlStore) (table_name : String)
    (table_columns : List (String × String)) : SqlStore :=
  if storeHasTable store table_name then store
  else store ++ [(table_name,
    ("id", "INTEGER PRIMARY KEY AUTOINCREMENT") :: table_columns)]

/-- `create_table` (`sql.rs` lines 8–21): builds the statement and executes
it against the store, returning the emitted statement and the new store. -/
def create_table (store : SqlStore) (table_name : String)
    (table_columns : List (String × String)) :
    Except String (String × SqlStore) :=
  .ok (create_table_query table_name table_columns,
    execCreateIfNotExists store table_name table_columns)

/-- C6: `create_table` emits a single CREATE TABLE IF NOT EXISTS statement
whose column list is the double-quoted auto-incrementing integer primary-key
column `id` followed by one double-quoted TEXT column per supplied
descriptor; calling it twice with the same store, table name and descriptors
succeeds both times, does not duplicate the table, and leaves the store
exactly as one call does. -/
theorem create_table_spec (store : SqlStore) (table_name : String)
    (descs : List (String × String)) (h : ∀ d ∈ descs, d.2 = "TEXT") :
    create_table store table_name descs =
      .ok (create_table_query table_name descs,
        execCreateIfNotExists store table_name descs) ∧
    create_table_query table_name descs =
      "\n    CREATE TABLE IF NOT EXISTS \"" ++ table_name ++
        "\" (\"id\" INTEGER PRIMARY KEY AUTOINCREMENT, " ++
        String.intercalate ", "
          (descs.map (fun d => "\"" ++ d.1 ++ "\" TEXT")) ++ ");\n    " ∧
    create_table (execCreateIfNotExists store table_name descs) table_name
        descs =
      .ok (create_table_query table_name descs,
        execCreateIfNotExists store table_name descs) := by
  refine ⟨rfl, ?_, ?_⟩
  · rw [create_table_query]
    have hcols : descs.map (fun p => "\"" ++ p.1 ++ "\" " ++ p.2) =
        descs.map (fun d => "\"" ++ d.1 ++ "\" TEXT") := by
      apply List.map_congr_left
      intro d hd
      rw [h d hd, String.append_assoc]
      rfl
    rw [hcols]
  · have hhas : storeHasTable (execCreateIfNotExists store table_name descs)
        table_name = true := by
      rw [execCreateIfNotExists]
      by_cases hs : storeHasTable store table_name
      · rw [if_pos hs]
        exact hs
      · rw [if_neg hs, storeHasTable, List.any_append]
        simp [storeHasTable]
    rw [create_table, execCreateIfNotExists, if_pos hhas]

/-- Witness for `create_table_spec`: creating table `t` with one TEXT column
twice yields the same single-table store both times. -/
theorem create_table_spec_witness :
    create_table [] "t" [("a", "TEXT")] =
      .ok (create_table_query "t" [("a", "TEXT")],
        execCreateIfNotExists [] "t" [("a", "TEXT")]) ∧
    create_table_query "t" [("a", "TEXT")] =
      "\n    CREATE TABLE IF NOT EXISTS \"t\" (\"id\" INTEGER PRIMARY KEY AUTOINCREMENT, \"a\" TEXT);\n    " ∧
    create_table (execCreateIfNotExists [] "t" [("a", "TEXT")]) "t"
        [("a", "TEXT")] =
      .ok (create_table_query "t" [("a", "TEXT")],
        execCreateIfNotExists [] "t" [("a", "TEXT")]) ∧
    execCreateIfNotExists [] "t" [("a", "TEXT")] =
      [("t", [("id", "INTEGER PRIMARY KEY AUTOINCREMENT"), ("a", "TEXT")])] := by
  have h := create_table_spec [] "t" [("a", "TEXT")]
    (by intro d hd; simp only [List.mem_singleton] at hd; subst hd; rfl)
  exact ⟨h.1, by rw [h.2.1]; rfl, h.2.2, by rfl⟩
